import Mathlib

/-!
Verification of the lynq-agentic-challenge repository: a shallow embedding of
the chunker, relevance selector, error classifiers, PDF-page extraction loops,
weather-tool response parser, city extraction and mock weather lookup, with
theorems settling the frozen specification claims.

Python strings are embedded as `List Char`; the character predicates
(`isspace`, `isupper`, `isalnum`, `lower`, `upper`, `title`) are modelled on
the ASCII range, which is the range exercised by the repository's data.
Floating-point relevance scores are modelled as exact rationals.
-/

namespace Lynq

/-- Shorthand turning a Lean string literal into the character-list embedding. -/
def cl (s : String) : List Char := s.toList

/-- Python `str.isspace` for one character, ASCII range. -/
def pyIsSpace (c : Char) : Bool :=
  c = ' ' || c = '\t' || c = '\n' || c = '\x0d' || c = '\x0b' || c = '\x0c'

/-- Python `str.isupper` for one character, ASCII range. -/
def pyIsUpperChar (c : Char) : Bool :=
  'A' ≤ c && c ≤ 'Z'

/-- Python `str.isalpha` for one character, ASCII range. -/
def pyIsAlphaChar (c : Char) : Bool :=
  ('a' ≤ c && c ≤ 'z') || ('A' ≤ c && c ≤ 'Z')

/-- Python `str.isalnum` for one character, ASCII range. -/
def pyIsAlnum (c : Char) : Bool :=
  pyIsAlphaChar c || ('0' ≤ c && c ≤ '9')

/-- Python `str.lower` for one character, ASCII range. -/
def pyLowerChar (c : Char) : Char :=
  if 'A' ≤ c && c ≤ 'Z' then Char.ofNat (c.toNat + 32) else c

/-- Python `str.upper` for one character, ASCII range. -/
def pyUpperChar (c : Char) : Char :=
  if 'a' ≤ c && c ≤ 'z' then Char.ofNat (c.toNat - 32) else c

/-- Python `str.lower` on a whole string. -/
def pyLowerStr (s : List Char) : List Char := s.map pyLowerChar

/-- Python `str.upper` on a whole string. -/
def pyUpperStr (s : List Char) : List Char := s.map pyUpperChar

/-- Python `str.strip()`: remove whitespace from both ends. -/
def pyStrip (s : List Char) : List Char :=
  ((s.dropWhile pyIsSpace).reverse.dropWhile pyIsSpace).reverse

/-- Python `str.strip(chars)`: remove the given characters from both ends. -/
def pyStripSet (chars : List Char) (s : List Char) : List Char :=
  ((s.dropWhile (chars.contains ·)).reverse.dropWhile (chars.contains ·)).reverse

/-- Single pass over the string accumulating the current word (reversed);
helper for `pySplit`. -/
def pySplitAux : List Char → List Char → List (List Char)
  | [], acc => if acc.isEmpty then [] else [acc.reverse]
  | c :: cs, acc =>
    if pyIsSpace c then
      if acc.isEmpty then pySplitAux cs [] else acc.reverse :: pySplitAux cs []
    else pySplitAux cs (c :: acc)

/-- Python `str.split()` with no argument: split on whitespace runs,
dropping empty pieces. -/
def pySplit (l : List Char) : List (List Char) := pySplitAux l []

/-- Python `sep.join(parts)`. -/
def pyJoin (sep : List Char) : List (List Char) → List Char
  | [] => []
  | [x] => x
  | x :: y :: xs => x ++ sep ++ pyJoin sep (y :: xs)

/-- Whether `pat` is an initial segment of `s` (helper for substring search). -/
def startsWith : List Char → List Char → Bool
  | [], _ => true
  | _ :: _, [] => false
  | a :: as, b :: bs => a = b && startsWith as bs

/-- Python `pat in s` for strings: substring occurrence test. -/
def containsS (pat : List Char) : List Char → Bool
  | [] => startsWith pat []
  | c :: rest => startsWith pat (c :: rest) || containsS pat rest

/-- Python `s.count(pat)`: number of non-overlapping occurrences, scanning
left to right and skipping the whole pattern after each match. The `fuel`
argument (instantiated with the string length, an upper bound on the number
of scan steps) makes the recursion structural. -/
def pyCountFuel (pat : List Char) : Nat → List Char → Nat
  | _, [] => 0
  | 0, _ :: _ => 0
  | fuel + 1, c :: rest =>
    if startsWith pat (c :: rest) then
      1 + pyCountFuel pat fuel (rest.drop (pat.length - 1))
    else
      pyCountFuel pat fuel rest

/-- Python `s.count(pat)` for a non-empty pattern. -/
def pyCountAux (pat : List Char) (s : List Char) : Nat :=
  pyCountFuel pat s.length s

/-- Python `s.count(pat)` (empty pattern counts `len + 1`, as in Python). -/
def pyCount (pat s : List Char) : Nat :=
  if pat = [] then s.length + 1 else pyCountAux pat s

/-- Python slicing `s[a:b]` for `0 ≤ a, b` (both ends clamped to the length). -/
def pySlice (s : List Char) (a b : Nat) : List Char :=
  (s.take b).drop a

/-- Python `str.title`, ASCII range: the first alphabetic character of each
run of alphabetic characters is uppercased, the rest are lowercased. -/
def pyTitleAux : Bool → List Char → List Char
  | _, [] => []
  | prevAlpha, c :: rest =>
    if pyIsAlphaChar c then
      (if prevAlpha then pyLowerChar c else pyUpperChar c) :: pyTitleAux true rest
    else
      c :: pyTitleAux false rest

/-- Python `str.title` on a whole string. -/
def pyTitle (s : List Char) : List Char := pyTitleAux false s

/-! ## Chunker (`create_text_chunks`, `pdf_chat_ui.py` lines 99-143) -/

/-- Membership of a character in the Python literal `'.!?'`. -/
def isSentEnd (c : Char) : Bool := c = '.' || c = '!' || c = '?'

/-- The list `sentence_ends` built by `create_text_chunks`: positions `i + 1`
for `i` in `range(search_start, end)` such that `text[i]` is a sentence
terminator followed by whitespace or an uppercase letter. -/
def sentenceEnds (text : List Char) (searchStart endIdx : Nat) : List Nat :=
  ((List.range' searchStart (endIdx - searchStart)).filter fun i =>
    isSentEnd (text.getD i ' ') && decide (i + 1 < text.length) &&
      (pyIsSpace (text.getD (i + 1) ' ') || pyIsUpperChar (text.getD (i + 1) ' '))).map
    (· + 1)

/-- The window end computed for one iteration of the chunk loop: the raw end
`min (start + chunk_size) len`, moved back to the last sentence end found in
the final 100 characters when the raw end is not the end of the text. -/
def chunkEnd (text : List Char) (chunkSize start : Nat) : Nat :=
  let e0 := min (start + chunkSize) text.length
  if e0 < text.length then
    ((sentenceEnds text (max (e0 - 100) start) e0).getLast?).getD e0
  else e0

/-- The next window start: `max(end - overlap, start + 1)`
(line 141 of `pdf_chat_ui.py`), which guarantees forward progress. -/
def nextStart (e overlap start : Nat) : Nat := max (e - overlap) (start + 1)

/-- The `while start < len(text)` loop of `create_text_chunks`. The `fuel`
argument (instantiated with `text.length`, an upper bound on the number of
iterations because each iteration advances `start` by at least one) makes
the recursion structural. -/
def chunkLoop (text : List Char) (chunkSize overlap : Nat) :
    Nat → Nat → List (List Char)
  | 0, _ => []
  | fuel + 1, start =>
    if start < text.length then
      let e := chunkEnd text chunkSize start
      let ck := pyStrip (pySlice text start e)
      let rest :=
        if text.length ≤ e then []
        else chunkLoop text chunkSize overlap fuel (nextStart e overlap start)
      if ck.isEmpty then rest else ck :: rest
    else []

/-- `create_text_chunks(text, chunk_size, overlap)` from `pdf_chat_ui.py`:
strip the text, clamp the overlap to half the chunk size, return the whole
text as a single chunk when it fits, otherwise run the window loop. -/
def create_text_chunks (text : List Char) (chunkSize overlap : Nat) :
    List (List Char) :=
  if (pyStrip text).isEmpty then []
  else
    let t := pyStrip text
    let ov := min overlap (chunkSize / 2)
    if t.length ≤ chunkSize then [t] else chunkLoop t chunkSize ov t.length 0

/-! ## Relevance selector (`find_relevant_chunks`, `pdf_chat_ui.py`
lines 146-196, and the scoring of `pdf_reader.py` lines 137-150) -/

/-- The stop-word set shared by both selector implementations. -/
def stop_words : List (List Char) :=
  [cl "the", cl "a", cl "an", cl "and", cl "or", cl "but", cl "in", cl "on",
   cl "at", cl "to", cl "for", cl "of", cl "with", cl "by", cl "is", cl "are",
   cl "was", cl "were", cl "be", cl "been", cl "have", cl "has", cl "had",
   cl "do", cl "does", cl "did", cl "will", cl "would", cl "could",
   cl "should", cl "may", cl "might", cl "can", cl "must"]

/-- Query-term extraction of `find_relevant_chunks` (`pdf_chat_ui.py`
lines 158-164): lower-case, split on whitespace, keep only alphanumeric
characters of each token, keep tokens that are non-empty, longer than two
characters and not stop words. -/
def query_words (query : List Char) : List (List Char) :=
  ((pySplit (pyLowerStr query)).map (fun w => w.filter pyIsAlnum)).filter
    (fun cw => !cw.isEmpty && decide (2 < cw.length) && !stop_words.contains cw)

/-- Query-term extraction of `PDFProcessor.find_relevant_chunks`
(`pdf_reader.py` lines 128-132); same as `query_words` except that the
redundant non-emptiness test is not written in the source. -/
def query_terms_reader (query : List Char) : List (List Char) :=
  ((pySplit (pyLowerStr query)).map (fun w => w.filter pyIsAlnum)).filter
    (fun cw => decide (2 < cw.length) && !stop_words.contains cw)

/-- Relevance score of one chunk in `pdf_chat_ui.py` (lines 171-179):
`score += count * (1 + len(word) / 10)` over the query words, with the count
taken in the lower-cased chunk. Floating-point arithmetic is modelled by
exact rationals. -/
def chunkScoreUI (words : List (List Char)) (chunk : List Char) : ℚ :=
  words.foldl
    (fun s w => s + (pyCount w (pyLowerStr chunk) : ℚ) * (1 + (w.length : ℚ) / 10))
    0

/-- Relevance score of one chunk in `pdf_reader.py` (lines 140-147):
`weight = 1 + (len(term) - 3) * 0.1` and `score += count * weight`. -/
def chunkScoreReader (terms : List (List Char)) (chunk : List Char) : ℚ :=
  terms.foldl
    (fun s t =>
      s + (pyCount t (pyLowerStr chunk) : ℚ) * (1 + ((t.length : ℚ) - 3) * (1 / 10)))
    0

/-- One entry of the `chunk_scores` list of `pdf_chat_ui.py` (line 181):
the tuple `(score, i, chunk)`. -/
structure ScoredChunk where
  score : ℚ
  idx : Nat
  chunk : List Char

/-- The `chunk_scores` list: each chunk with its score and original index. -/
def scoredChunksUI (words : List (List Char)) (chunks : List (List Char)) :
    List ScoredChunk :=
  chunks.enum.map fun p => ⟨chunkScoreUI words p.2, p.1, p.2⟩

/-- Insertion into a list sorted by score descending, placed after every
element of score greater than or equal to the inserted one. Together with
`sortDesc` this is a stable descending sort by score, the behaviour of
Python's `list.sort(key=lambda x: x[0], reverse=True)`. -/
def insertDesc (x : ScoredChunk) : List ScoredChunk → List ScoredChunk
  | [] => [x]
  | y :: ys => if y.score ≤ x.score then x :: y :: ys else y :: insertDesc x ys

/-- Stable sort by score descending (ties keep the input order). -/
def sortDesc : List ScoredChunk → List ScoredChunk
  | [] => []
  | x :: xs => insertDesc x (sortDesc xs)

/-- The separator `"\n\n"` joining selected chunks. -/
def blankSep : List Char := cl "\n\n"

/-- `find_relevant_chunks(chunks, query, max_chunks)` from `pdf_chat_ui.py`:
empty input yields the empty string; a blank or degenerate query yields the
first `max_chunks` chunks; otherwise the chunks are scored, sorted by score
descending (stable), the top `max_chunks` with positive score are taken, and
if none scored positive the first `max_chunks` chunks are the fallback. -/
def find_relevant_chunks (chunks : List (List Char)) (query : List Char)
    (maxChunks : Nat) : List Char :=
  if chunks.isEmpty then []
  else if (pyStrip query).isEmpty then pyJoin blankSep (chunks.take maxChunks)
  else
    let words := query_words query
    if words.isEmpty then pyJoin blankSep (chunks.take maxChunks)
    else
      let sorted := sortDesc (scoredChunksUI words chunks)
      let relevant := ((sorted.take maxChunks).filter (fun e => 0 < e.score)).map
        (fun e => e.chunk)
      pyJoin blankSep (if relevant.isEmpty then chunks.take maxChunks else relevant)

/-! ## Reader variants (`PDFProcessor.create_chunks`, `pdf_reader.py`
lines 78-117, and `PDFProcessor.find_relevant_chunks`, lines 119-160).
The reader's backward `best_break` scan takes the largest qualifying
sentence-end position in the same search window, which is exactly
`chunkEnd`; the loop differs from the UI one only in keeping a stripped
window when its length exceeds 20. -/

/-- The `while` loop of `PDFProcessor.create_chunks`, fuel-structured like
`chunkLoop`. -/
def readerChunkLoop (text : List Char) (chunkSize overlap : Nat) :
    Nat → Nat → List (List Char)
  | 0, _ => []
  | fuel + 1, start =>
    if start < text.length then
      let e := chunkEnd text chunkSize start
      let ck := pyStrip (pySlice text start e)
      let rest :=
        if text.length ≤ e then []
        else readerChunkLoop text chunkSize overlap fuel (nextStart e overlap start)
      if !ck.isEmpty && decide (20 < ck.length) then ck :: rest else rest
    else []

/-- `PDFProcessor.create_chunks(text)` with the stored chunk size and
overlap (already clamped by `__init__`). -/
def create_chunks (text : List Char) (chunkSize overlap : Nat) :
    List (List Char) :=
  if (pyStrip text).isEmpty then []
  else
    let t := pyStrip text
    if t.length ≤ chunkSize then [t]
    else readerChunkLoop t chunkSize overlap t.length 0

/-- Stable descending insertion for the reader's `(score, chunk)` pairs,
the behaviour of `scored_chunks.sort(key=lambda x: x[0], reverse=True)`. -/
def insertDescP (x : ℚ × List Char) : List (ℚ × List Char) → List (ℚ × List Char)
  | [] => [x]
  | y :: ys => if y.1 ≤ x.1 then x :: y :: ys else y :: insertDescP x ys

/-- Stable sort by score descending for the reader's pairs. -/
def sortDescP : List (ℚ × List Char) → List (ℚ × List Char)
  | [] => []
  | x :: xs => insertDescP x (sortDescP xs)

/-- `PDFProcessor.find_relevant_chunks(chunks, query, max_chunks)`: like the
UI selector, but only positively scored chunks enter the sorted list. -/
def PDFProcessor_find (chunks : List (List Char)) (query : List Char)
    (maxChunks : Nat) : List Char :=
  if chunks.isEmpty then []
  else if (pyStrip query).isEmpty then pyJoin blankSep (chunks.take maxChunks)
  else
    let terms := query_terms_reader query
    if terms.isEmpty then pyJoin blankSep (chunks.take maxChunks)
    else
      let scored := chunks.filterMap (fun c =>
        if 0 < chunkScoreReader terms c then some (chunkScoreReader terms c, c)
        else none)
      let selected := ((sortDescP scored).take maxChunks).map (fun p => p.2)
      pyJoin blankSep (if selected.isEmpty then chunks.take maxChunks else selected)

/-! ## Error classification of the Gemini call
(`query_gemini_model`, `pdf_chat_ui.py` lines 235-247, and
`GeminiClient.query`, `pdf_reader.py` lines 228-241): the `except` branch
lower-cases the error text and matches substrings in order. -/

/-- Decimal digits of a natural number (fuel-structured so that the kernel
can evaluate it; the fuel is an upper bound on the number of digits). -/
def natStrAux : Nat → Nat → List Char → List Char
  | 0, _, acc => acc
  | fuel + 1, n, acc =>
    let d := Char.ofNat (48 + n % 10)
    if n < 10 then d :: acc else natStrAux fuel (n / 10) (d :: acc)

/-- Python `str(n)` for a natural number. -/
def natStr (n : Nat) : List Char := natStrAux (n + 1) n []

/-- Python `str(n)` for an integer. -/
def intStr : Int → List Char
  | .ofNat m => natStr m
  | .negSucc m => '-' :: natStr (m + 1)

/-- Quota condition of `pdf_chat_ui.py` line 238: `"429" in error_msg or
"quota" in error_msg or "limit" in error_msg`. -/
def uiQuotaCond (m : List Char) : Bool :=
  containsS (cl "429") m || containsS (cl "quota") m || containsS (cl "limit") m

/-- Auth condition of `pdf_chat_ui.py` line 240: `"api" in error_msg and
"key" in error_msg`. -/
def uiAuthCond (m : List Char) : Bool :=
  containsS (cl "api") m && containsS (cl "key") m

/-- Safety condition of `pdf_chat_ui.py` line 242. -/
def uiSafetyCond (m : List Char) : Bool :=
  containsS (cl "blocked") m || containsS (cl "safety") m

/-- Not-found condition of `pdf_chat_ui.py` line 244: `"404" in error_msg or
"not found" in error_msg`. -/
def uiNotFoundCond (m : List Char) : Bool :=
  containsS (cl "404") m || containsS (cl "not found") m

/-- The five user-facing strings of `query_gemini_model`. -/
def uiQuotaMsg : List Char :=
  cl "Warning: API quota exceeded. Please try again later or switch to gemini-1.5-flash model."

/-- Auth message of `query_gemini_model`. -/
def uiAuthMsg : List Char :=
  cl "Error: Invalid API key. Please check your GEMINI_API_KEY."

/-- Safety message of `query_gemini_model`. -/
def uiSafetyMsg : List Char :=
  cl "Warning: Response blocked by safety filters. Please try rephrasing your question."

/-- Model-not-found message of `query_gemini_model`. -/
def uiNotFoundMsg (modelName : List Char) : List Char :=
  cl "Error: Model '" ++ modelName ++ cl "' not found. Please select a different model."

/-- Generic failure message of `query_gemini_model`. -/
def uiGenericMsg (e : List Char) : List Char :=
  cl "Error: Failed to query model - " ++ e

/-- The `except` branch of `query_gemini_model` (`pdf_chat_ui.py`
lines 235-247) as a pure function of the raised error's text. -/
def classifyUI (modelName e : List Char) : List Char :=
  let m := pyLowerStr e
  if uiQuotaCond m then uiQuotaMsg
  else if uiAuthCond m then uiAuthMsg
  else if uiSafetyCond m then uiSafetyMsg
  else if uiNotFoundCond m then uiNotFoundMsg modelName
  else uiGenericMsg e

/-- Quota condition of `pdf_reader.py` line 232:
`any(term in error_message for term in ["429", "quota", "rate limit"])`. -/
def readerQuotaCond (m : List Char) : Bool :=
  containsS (cl "429") m || containsS (cl "quota") m || containsS (cl "rate limit") m

/-- Auth condition of `pdf_reader.py` line 234:
`any(term in error_message for term in ["api", "key", "auth"])`. -/
def readerAuthCond (m : List Char) : Bool :=
  containsS (cl "api") m || containsS (cl "key") m || containsS (cl "auth") m

/-- Safety condition of `pdf_reader.py` line 236. -/
def readerSafetyCond (m : List Char) : Bool :=
  containsS (cl "blocked") m || containsS (cl "safety") m

/-- Not-found condition of `pdf_reader.py` line 238: `"404" in error_message`
only. -/
def readerNotFoundCond (m : List Char) : Bool :=
  containsS (cl "404") m

/-- Quota message of `GeminiClient.query`. -/
def readerQuotaMsg : List Char :=
  cl "API quota exceeded. Please wait or try the Flash model for better limits."

/-- Auth message of `GeminiClient.query`. -/
def readerAuthMsg : List Char :=
  cl "API authentication failed. Please verify your GEMINI_API_KEY."

/-- Safety message of `GeminiClient.query`. -/
def readerSafetyMsg : List Char :=
  cl "Response blocked by safety filters. Try rephrasing your question."

/-- Model-not-found message of `GeminiClient.query`. -/
def readerNotFoundMsg (modelName : List Char) : List Char :=
  cl "Model '" ++ modelName ++ cl "' not available. Try 'gemini-1.5-flash' instead."

/-- Generic failure message of `GeminiClient.query`
(the error text truncated to 100 characters). -/
def readerGenericMsg (e : List Char) : List Char :=
  cl "Query failed: " ++ e.take 100

/-- The `except` branch of `GeminiClient.query` (`pdf_reader.py`
lines 228-241) as a pure function of the raised error's text. -/
def classifyReader (modelName e : List Char) : List Char :=
  let m := pyLowerStr e
  if readerQuotaCond m then readerQuotaMsg
  else if readerAuthCond m then readerAuthMsg
  else if readerSafetyCond m then readerSafetyMsg
  else if readerNotFoundCond m then readerNotFoundMsg modelName
  else readerGenericMsg e

/-! ## PDF page-extraction loops
(`extract_text_from_pdf`, `pdf_chat_ui.py` lines 52-96, and
`PDFProcessor.extract_text`, `pdf_reader.py` lines 31-76). The PDF library
is the external collaborator of spec section 6: its per-page outcomes are
modelled as a list of page results, success text or failure message. -/

/-- Outcome of the collaborator's `page.extract_text()` for one page. -/
inductive PageResult where
  | ok (text : List Char)
  | err (msg : List Char)

/-- `' '.join(page_text.strip().split())`: whitespace normalisation applied
to each extracted page. -/
def cleanPage (t : List Char) : List Char := pyJoin (cl " ") (pySplit (pyStrip t))

/-- The page loop of `extract_text_from_pdf` (pages enumerated from 0,
warnings mention `page_num + 1`). Returns
`(text_parts, warnings, failed_pages)`. -/
def uiPagesLoop : Nat → List PageResult → List (List Char) × List (List Char) × Nat
  | _, [] => ([], [], 0)
  | k, p :: ps =>
    let rest := uiPagesLoop (k + 1) ps
    match p with
    | .ok t =>
      if !t.isEmpty && !(pyStrip t).isEmpty then
        let cleaned := cleanPage t
        if !cleaned.isEmpty then (cleaned :: rest.1, rest.2.1, rest.2.2)
        else (rest.1, rest.2.1, rest.2.2)
      else (rest.1, rest.2.1, rest.2.2 + 1)
    | .err msg =>
      (rest.1,
        (cl "Error extracting text from page " ++ natStr (k + 1) ++ cl ": " ++ msg)
          :: rest.2.1,
        rest.2.2 + 1)

/-- `extract_text_from_pdf` (`pdf_chat_ui.py`): join the per-page results,
append the failed-pages summary and the no-readable-text warning. -/
def uiExtractText (pages : List PageResult) : List Char × List (List Char) :=
  if pages.isEmpty then ([], [cl "PDF has no pages"])
  else
    let r := uiPagesLoop 0 pages
    let warns :=
      if 0 < r.2.2 then
        r.2.1 ++ [cl "Failed to extract text from " ++ natStr r.2.2 ++
          cl " out of " ++ natStr pages.length ++ cl " pages"]
      else r.2.1
    if r.1.isEmpty then
      ([], warns ++ [cl "No readable text found in any pages. This might be a scanned PDF."])
    else (pyJoin blankSep r.1, warns)

/-- The page loop of `PDFProcessor.extract_text` (pages enumerated from 1);
a cleaned page is kept only when its length exceeds 10. -/
def readerPagesLoop : Nat → List PageResult → List (List Char) × List (List Char) × Nat
  | _, [] => ([], [], 0)
  | k, p :: ps =>
    let rest := readerPagesLoop (k + 1) ps
    match p with
    | .ok t =>
      if !t.isEmpty && !(pyStrip t).isEmpty then
        let cleaned := cleanPage t
        if 10 < cleaned.length then (cleaned :: rest.1, rest.2.1, rest.2.2)
        else (rest.1, rest.2.1, rest.2.2)
      else (rest.1, rest.2.1, rest.2.2 + 1)
    | .err msg =>
      (rest.1,
        (cl "Page " ++ natStr k ++ cl " extraction failed: " ++ msg.take 50)
          :: rest.2.1,
        rest.2.2 + 1)

/-- `PDFProcessor.extract_text` (`pdf_reader.py`); when no part survives it
returns the single scanned-PDF warning, discarding the accumulated ones. -/
def readerExtractText (pages : List PageResult) : List Char × List (List Char) :=
  if pages.isEmpty then ([], [cl "PDF contains no pages"])
  else
    let r := readerPagesLoop 1 pages
    let warns :=
      if 0 < r.2.2 then
        r.2.1 ++ [cl "Unable to process " ++ natStr r.2.2 ++ cl " of " ++
          natStr pages.length ++ cl " pages"]
      else r.2.1
    if r.1.isEmpty then
      ([], [cl "No readable text found. May be a scanned/image PDF"])
    else (pyJoin blankSep r.1, warns)

/-! ## `PDFProcessor.__init__` (`pdf_reader.py` lines 21-23) -/

/-- The stored `(chunk_size, overlap)` pair: `max(chunk_size, 500)` and
`min(overlap, chunk_size // 2)`, the floor division taken on the original,
unclamped `chunk_size` argument. Python `//` with positive divisor agrees
with `Int` division `/` (Euclidean division). -/
def PDFProcessor_init (chunk_size overlap : Int) : Int × Int :=
  (max chunk_size 500, min overlap (chunk_size / 2))

/-! ## Weather tool response parsing (`WeatherAgent.call_weather_tool`,
`client_agent.py` lines 42-54). The JSON bodies the endpoint may return are
modelled by `PyJson`; the arms of the Python `isinstance` dispatch become
constructor matches. -/

mutual

/-- A JSON value as Python's `json` module produces it (numbers restricted
to integers, which covers every payload this repository exchanges). -/
inductive PyJson where
  | str (s : List Char)
  | int (n : Int)
  | bool (b : Bool)
  | null
  | arr (xs : PyJsonList)
  | obj (kvs : PyJsonObj)

/-- A JSON array, spelled out so that all recursion stays structural. -/
inductive PyJsonList where
  | nil
  | cons (hd : PyJson) (tl : PyJsonList)

/-- A JSON object: ordered key/value pairs. -/
inductive PyJsonObj where
  | nil
  | cons (key : List Char) (val : PyJson) (tl : PyJsonObj)

end

/-- Python `d[k]` / `d.get(k)`: first value stored under the key. -/
def lookupObj (k : List Char) : PyJsonObj → Option PyJson
  | .nil => none
  | .cons key v tl => if key = k then some v else lookupObj k tl

/-- One hex digit, lowercase, as `json.dumps` prints in `\uXXXX` escapes. -/
def hexDigit (n : Nat) : Char :=
  if n < 10 then Char.ofNat (48 + n) else Char.ofNat (87 + n)

/-- Four hex digits of a code point below 0x10000. -/
def hex4 (n : Nat) : List Char :=
  [hexDigit (n / 4096 % 16), hexDigit (n / 256 % 16), hexDigit (n / 16 % 16),
   hexDigit (n % 16)]

/-- The escape `json.dumps` (default `ensure_ascii=True`) applies to one
character of a string. -/
def jsonEscapeChar (c : Char) : List Char :=
  if c = '"' then ['\\', '"']
  else if c = '\\' then ['\\', '\\']
  else if c = '\n' then ['\\', 'n']
  else if c = '\x0d' then ['\\', 'r']
  else if c = '\t' then ['\\', 't']
  else if c = '\x08' then ['\\', 'b']
  else if c = '\x0c' then ['\\', 'f']
  else if c.toNat < 32 || 126 < c.toNat then cl "\\u" ++ hex4 c.toNat
  else [c]

/-- `json.dumps` of a string, quotes included. -/
def jsonStr (s : List Char) : List Char :=
  '"' :: (s.map jsonEscapeChar).flatten ++ ['"']

mutual

/-- Python `json.dumps(v)` with default separators. -/
def jsonDumps : PyJson → List Char
  | .str s => jsonStr s
  | .int n => intStr n
  | .bool b => if b then cl "true" else cl "false"
  | .null => cl "null"
  | .arr xs => '[' :: jsonArrBody xs ++ [']']
  | .obj kvs => Char.ofNat 123 :: jsonObjBody kvs ++ [Char.ofNat 125]

/-- The comma-separated items of a dumped array. -/
def jsonArrBody : PyJsonList → List Char
  | .nil => []
  | .cons x .nil => jsonDumps x
  | .cons x (.cons y tl) => jsonDumps x ++ cl ", " ++ jsonArrBody (.cons y tl)

/-- The comma-separated `"key": value` pairs of a dumped object. -/
def jsonObjBody : PyJsonObj → List Char
  | .nil => []
  | .cons k v .nil => jsonStr k ++ cl ": " ++ jsonDumps v
  | .cons k v (.cons k2 v2 tl) =>
    jsonStr k ++ cl ": " ++ jsonDumps v ++ cl ", " ++
      jsonObjBody (.cons k2 v2 tl)

end

/-- The escape Python `repr` applies to one character inside a
single-quoted string. -/
def pyReprEscapeChar (c : Char) : List Char :=
  if c = '\x27' then ['\\', '\x27']
  else if c = '\\' then ['\\', '\\']
  else if c = '\n' then ['\\', 'n']
  else if c = '\x0d' then ['\\', 'r']
  else if c = '\t' then ['\\', 't']
  else if c.toNat < 32 || c.toNat = 127 then
    '\\' :: 'x' :: [hexDigit (c.toNat / 16 % 16), hexDigit (c.toNat % 16)]
  else [c]

/-- Python `repr` of a string, single-quoted (the double-quote variant
Python picks for strings containing a single quote is not reached by the
repository's data). -/
def pyReprStr (s : List Char) : List Char :=
  '\x27' :: (s.map pyReprEscapeChar).flatten ++ ['\x27']

mutual

/-- Python `repr(v)` of a parsed JSON value. -/
def pyReprJson : PyJson → List Char
  | .str s => pyReprStr s
  | .int n => intStr n
  | .bool b => if b then cl "True" else cl "False"
  | .null => cl "None"
  | .arr xs => '[' :: pyReprArrBody xs ++ [']']
  | .obj kvs => Char.ofNat 123 :: pyReprObjBody kvs ++ [Char.ofNat 125]

/-- The comma-separated items of a repr-ed list. -/
def pyReprArrBody : PyJsonList → List Char
  | .nil => []
  | .cons x .nil => pyReprJson x
  | .cons x (.cons y tl) => pyReprJson x ++ cl ", " ++ pyReprArrBody (.cons y tl)

/-- The comma-separated `'key': value` pairs of a repr-ed dict. -/
def pyReprObjBody : PyJsonObj → List Char
  | .nil => []
  | .cons k v .nil => pyReprStr k ++ cl ": " ++ pyReprJson v
  | .cons k v (.cons k2 v2 tl) =>
    pyReprStr k ++ cl ": " ++ pyReprJson v ++ cl ", " ++
      pyReprObjBody (.cons k2 v2 tl)

end

/-- Python `str(v)` of a parsed JSON value: the string itself for a string,
`repr` otherwise. -/
def pyStrJson : PyJson → List Char
  | .str s => s
  | v => pyReprJson v

/-- The `for item in data["content"]` scan: the first list item that is a
dict whose `"type"` equals `"text"`. -/
def firstTextItem : PyJsonList → Option PyJsonObj
  | .nil => none
  | .cons (.obj ikvs) rest =>
    match lookupObj (cl "type") ikvs with
    | some (.str t) => if t = cl "text" then some ikvs else firstTextItem rest
    | _ => firstTextItem rest
  | .cons _ rest => firstTextItem rest

/-- Whether the dict has a `"content"` key holding a list with a text item:
the condition under which `call_weather_tool` returns from inside the loop. -/
def contentHit (kvs : PyJsonObj) : Option PyJsonObj :=
  match lookupObj (cl "content") kvs with
  | some (.arr items) => firstTextItem items
  | _ => none

/-- The response-shape dispatch of `call_weather_tool` (`client_agent.py`
lines 42-54): text item inside a `"content"` list, then `"result"`, then a
string-valued `"content"`, then `json.dumps` of the body; a non-dict body
becomes `str(data)`. -/
def call_weather_tool_parse (data : PyJson) : PyJson :=
  match data with
  | .obj kvs =>
    match contentHit kvs with
    | some ikvs =>
      match lookupObj (cl "text") ikvs with
      | some v => v
      | none => .str (pyStrJson (.obj kvs))
    | none =>
      match lookupObj (cl "result") kvs with
      | some r => r
      | none =>
        match lookupObj (cl "content") kvs with
        | some (.str s) => .str s
        | _ => .str (jsonDumps (.obj kvs))
  | other => .str (pyStrJson other)

/-! ## City extraction (`WeatherAgent.extract_city`, `client_agent.py`
lines 71-106) -/

/-- The hard-coded fallback city list, in source order. -/
def common_cities : List (List Char) :=
  [cl "hyderabad", cl "bangalore", cl "bengaluru", cl "delhi", cl "mumbai",
   cl "chennai", cl "kolkata", cl "pune", cl "london", cl "paris", cl "tokyo",
   cl "new york"]

/-- The `except` branch of `extract_city`: the first listed city occurring
as a substring of the lower-cased query, title-cased; `None` otherwise. -/
def extract_city_fallback (query : List Char) : Option (List Char) :=
  (common_cities.find? (fun c => containsS c (pyLowerStr query))).map pyTitle

/-- The characters stripped by `.strip('"\'')`. -/
def quoteChars : List Char := ['"', '\x27']

/-- The success branch of `extract_city`: strip whitespace then quotes from
the model's reply, map a case-insensitive `NONE` to no city. -/
def extract_city_reply (reply : List Char) : Option (List Char) :=
  let city := pyStripSet quoteChars (pyStrip reply)
  if pyUpperStr city = cl "NONE" then none else some city

/-! ## Mock weather lookup (`get_weather`, `weather_mcp.py` lines 31-40,
the branch taken when no OPENWEATHER_API_KEY is configured) -/

/-- The `MOCK_DATA` table. -/
def MOCK_DATA : List (List Char × List Char) :=
  [(cl "hyderabad", cl "cloudy with light rain, 27°C"),
   (cl "bengaluru", cl "partly cloudy, 24°C"),
   (cl "delhi", cl "clear sky, 32°C"),
   (cl "mumbai", cl "humid and warm, 30°C"),
   (cl "chennai", cl "sunny, 35°C"),
   (cl "kolkata", cl "thunderstorm, 28°C"),
   (cl "pune", cl "pleasant, 26°C"),
   (cl "london", cl "rainy, 18°C"),
   (cl "new york", cl "partly cloudy, 22°C"),
   (cl "tokyo", cl "sunny, 25°C")]

/-- `MOCK_DATA.get(key)`. -/
def lookupMock (key : List Char) : Option (List Char) :=
  (MOCK_DATA.find? (fun p => p.1 = key)).map (fun p => p.2)

/-- `get_weather(city)` in mock mode (`API_KEY` empty): an empty city is the
error string, otherwise the stripped city is looked up lower-cased in
`MOCK_DATA` with the `"sunny, 30°C"` default. -/
def get_weather_mock (city : List Char) : List Char :=
  if city.isEmpty then cl "Error: No city provided"
  else
    let c := pyStrip city
    let weather := (lookupMock (pyLowerStr c)).getD (cl "sunny, 30°C")
    cl "Weather in " ++ c ++ cl ": " ++ weather

/-! ## Spec-side and characterisation definitions used by the theorems -/

/-- The scoring formula as the spec states it (section 4.2 step 2): the sum
over the query terms of `occurrences * (1 + term_length / 10)`. Stated
independently of the source so the implementations can be compared to it. -/
def specScore (terms : List (List Char)) (chunk : List Char) : ℚ :=
  (terms.map
    (fun t => (pyCount t (pyLowerStr chunk) : ℚ) * (1 + (t.length : ℚ) / 10))).sum

/-- The order `sortDesc` is shown to establish: strictly greater score, or
equal score and strictly smaller original index (stability). -/
def rankedBefore (a b : ScoredChunk) : Prop :=
  b.score < a.score ∨ (a.score = b.score ∧ a.idx < b.idx)

/-- The `scored_chunks` list of `PDFProcessor.find_relevant_chunks`
(`pdf_reader.py` lines 138-150), written exactly as it is inlined in
`PDFProcessor_find`: each chunk with positive score paired with its score,
in original chunk order. -/
def readerScoredPairs (terms : List (List Char)) (chunks : List (List Char)) :
    List (ℚ × List Char) :=
  chunks.filterMap (fun c =>
    if 0 < chunkScoreReader terms c then some (chunkScoreReader terms c, c)
    else none)

/-- Erase the ghost original-position tag of an indexed scored entry,
recovering the reader's `(score, chunk)` pair. -/
def untagPair (e : ScoredChunk) : ℚ × List Char := (e.score, e.chunk)

/-- Tag each of the reader's `(score, chunk)` pairs with its original list
position, so that stability of the pair sort can be stated. -/
def tagScored (ps : List (ℚ × List Char)) : List ScoredChunk :=
  ps.enum.map (fun p => ⟨p.2.1, p.1, p.2.2⟩)

/-- The cleaned text a page contributes in `extract_text_from_pdf`, `none`
when the page is skipped. -/
def uiContrib : PageResult → Option (List Char)
  | .ok t =>
    if !t.isEmpty && !(pyStrip t).isEmpty then
      if !(cleanPage t).isEmpty then some (cleanPage t) else none
    else none
  | .err _ => none

/-- The cleaned text a page contributes in `PDFProcessor.extract_text`. -/
def readerContrib : PageResult → Option (List Char)
  | .ok t =>
    if !t.isEmpty && !(pyStrip t).isEmpty then
      if 10 < (cleanPage t).length then some (cleanPage t) else none
    else none
  | .err _ => none

/-- A page that yields nothing in the UI extractor: extraction failed, or
the text is empty or whitespace-only. -/
def uiPageDeadB : PageResult → Bool
  | .ok t => (pyStrip t).isEmpty
  | .err _ => true

/-- A page that yields nothing in the reader extractor: extraction failed,
or the normalised text has length at most 10. -/
def readerPageDeadB : PageResult → Bool
  | .ok t => decide ((cleanPage t).length ≤ 10)
  | .err _ => true

/-- The number of failing pages in a page-result list. -/
def errCount (pages : List PageResult) : Nat :=
  pages.countP (fun p => match p with | .err _ => true | .ok _ => false)

/-! # Theorems -/

/-! ## Helper lemmas about the string primitives -/

/-- Every word `pySplitAux` produces is non-empty. -/
theorem pySplitAux_mem_ne_nil :
    ∀ (l acc : List Char) (w : List Char), w ∈ pySplitAux l acc → w ≠ [] := by
  intro l
  induction l with
  | nil =>
    intro acc w hw
    by_cases hacc : acc.isEmpty
    · simp [pySplitAux, hacc] at hw
    · simp only [pySplitAux, if_neg hacc, List.mem_singleton] at hw
      subst hw
      simp_all [List.isEmpty_iff]
  | cons c cs ih =>
    intro acc w hw
    by_cases hsp : pyIsSpace c
    · by_cases hacc : acc.isEmpty
      · simp only [pySplitAux, if_pos hsp, if_pos hacc] at hw
        exact ih [] w hw
      · simp only [pySplitAux, if_pos hsp, if_neg hacc, List.mem_cons] at hw
        rcases hw with rfl | hw
        · simp_all [List.isEmpty_iff]
        · exact ih [] w hw
    · simp only [pySplitAux, if_neg hsp] at hw
      exact ih (c :: acc) w hw

/-- Every word of a Python split is non-empty. -/
theorem pySplit_mem_ne_nil (l : List Char) : ∀ w ∈ pySplit l, w ≠ [] :=
  fun w hw => pySplitAux_mem_ne_nil l [] w hw

/-- `pySplitAux` yields no word exactly when the accumulator is empty and
everything left is whitespace. -/
theorem pySplitAux_eq_nil_iff :
    ∀ (l acc : List Char),
      pySplitAux l acc = [] ↔ (acc = [] ∧ ∀ c ∈ l, pyIsSpace c) := by
  intro l
  induction l with
  | nil =>
    intro acc
    by_cases hacc : acc.isEmpty
    · simp [pySplitAux, hacc, List.isEmpty_iff.mp hacc]
    · have hacc' : acc ≠ [] := by simpa [List.isEmpty_iff] using hacc
      simp [pySplitAux, hacc, hacc']
  | cons c cs ih =>
    intro acc
    by_cases hsp : pyIsSpace c
    · by_cases hacc : acc.isEmpty
      · simp [pySplitAux, if_pos hsp, hacc, ih, List.isEmpty_iff.mp hacc, hsp]
      · have hacc' : acc ≠ [] := by simpa [List.isEmpty_iff] using hacc
        simp [pySplitAux, if_pos hsp, hacc, ih, hacc']
    · simp only [pySplitAux, if_neg hsp, ih]
      constructor
      · rintro ⟨h, -⟩
        cases h
      · rintro ⟨-, hall⟩
        exact absurd (hall c (by simp)) hsp

/-- A Python split is empty exactly when the string is all whitespace. -/
theorem pySplit_eq_nil_iff (l : List Char) :
    pySplit l = [] ↔ ∀ c ∈ l, pyIsSpace c := by
  rw [pySplit, pySplitAux_eq_nil_iff]
  simp

/-- Strip of a string is empty exactly when the string is all whitespace. -/
theorem pyStrip_eq_nil_iff (l : List Char) :
    pyStrip l = [] ↔ ∀ c ∈ l, pyIsSpace c := by
  unfold pyStrip
  rw [List.reverse_eq_nil_iff, List.dropWhile_eq_nil_iff]
  constructor
  · intro h c hc
    have hsplit := List.takeWhile_append_dropWhile pyIsSpace l
    rcases List.mem_append.mp (by rw [hsplit]; exact hc) with htk | hdr
    · exact List.mem_takeWhile_imp htk
    · exact h c (by simpa using hdr)
  · intro h c hc
    have hc' : c ∈ l.dropWhile pyIsSpace := by simpa using hc
    have hsub : List.Sublist (l.dropWhile pyIsSpace) l := by
      conv_rhs => rw [← List.takeWhile_append_dropWhile pyIsSpace l]
      exact List.sublist_append_right _ _
    exact h c (hsub.mem hc')

/-- A non-empty stripped string contains a non-whitespace character. -/
theorem pyStrip_not_all_space (l : List Char) (h : pyStrip l ≠ []) :
    ¬ ∀ c ∈ pyStrip l, pyIsSpace c := by
  intro hall
  apply h
  unfold pyStrip at hall ⊢
  rw [List.reverse_eq_nil_iff, List.dropWhile_eq_nil_iff]
  intro x hx
  rcases List.mem_append.mp (by
      rw [List.takeWhile_append_dropWhile pyIsSpace (l.dropWhile pyIsSpace).reverse]
      exact hx) with htk | hdr
  · exact List.mem_takeWhile_imp htk
  · exact hall x (List.mem_reverse.mpr hdr)

/-- Joining a list whose head is non-empty yields a non-empty string. -/
theorem pyJoin_ne_nil (sep x : List Char) (xs : List (List Char)) (hx : x ≠ []) :
    pyJoin sep (x :: xs) ≠ [] := by
  cases xs with
  | nil => simpa [pyJoin] using hx
  | cons y ys =>
    simp only [pyJoin, ne_eq, List.append_eq_nil]
    rintro ⟨⟨hx', -⟩, -⟩
    exact hx hx'

/-- The per-page normalisation is empty exactly when the stripped page text
is empty. -/
theorem cleanPage_eq_nil_iff (t : List Char) : cleanPage t = [] ↔ pyStrip t = [] := by
  constructor
  · intro h
    by_contra hne
    have hsplit : pySplit (pyStrip t) ≠ [] := by
      rw [ne_eq, pySplit_eq_nil_iff]
      exact pyStrip_not_all_space t hne
    obtain ⟨w, ws, hws⟩ := List.exists_cons_of_ne_nil hsplit
    have hw : w ≠ [] := pySplit_mem_ne_nil _ w (by rw [hws]; simp)
    exact pyJoin_ne_nil (cl " ") w ws hw (by rwa [cleanPage, hws] at h)
  · intro h
    rw [cleanPage, h]
    rfl

/-! ## Claim C6: page extraction -/

/-- The parts list built by the UI page loop, independent of the page
counter: the filter-map of the per-page contribution. -/
theorem uiPagesLoop_parts :
    ∀ (pages : List PageResult) (k : Nat),
      (uiPagesLoop k pages).1 = pages.filterMap uiContrib := by
  intro pages
  induction pages with
  | nil => intro k; rfl
  | cons p ps ih =>
    intro k
    cases p with
    | ok t =>
      simp only [uiPagesLoop, List.filterMap_cons, uiContrib]
      by_cases h1 : !t.isEmpty && !(pyStrip t).isEmpty
      · by_cases h2 : !(cleanPage t).isEmpty
        · simp [h1, h2, ih]
        · simp [h1, h2, ih]
      · simp [h1, ih]
    | err m => simp [uiPagesLoop, List.filterMap_cons, uiContrib, ih]

/-- The number of warnings the UI page loop accumulates equals the number of
failing pages. -/
theorem uiPagesLoop_warns_len :
    ∀ (pages : List PageResult) (k : Nat),
      (uiPagesLoop k pages).2.1.length = errCount pages := by
  intro pages
  induction pages with
  | nil => intro k; rfl
  | cons p ps ih =>
    intro k
    cases p with
    | ok t =>
      simp only [uiPagesLoop, errCount, List.countP_cons]
      by_cases h1 : !t.isEmpty && !(pyStrip t).isEmpty
      · by_cases h2 : !(cleanPage t).isEmpty
        · simpa [h1, h2, errCount] using ih (k + 1)
        · simpa [h1, h2, errCount] using ih (k + 1)
      · simpa [h1, errCount] using ih (k + 1)
    | err m =>
      simpa [uiPagesLoop, errCount, List.countP_cons] using ih (k + 1)

/-- The parts list built by the reader page loop. -/
theorem readerPagesLoop_parts :
    ∀ (pages : List PageResult) (k : Nat),
      (readerPagesLoop k pages).1 = pages.filterMap readerContrib := by
  intro pages
  induction pages with
  | nil => intro k; rfl
  | cons p ps ih =>
    intro k
    cases p with
    | ok t =>
      simp only [readerPagesLoop, List.filterMap_cons, readerContrib]
      by_cases h1 : !t.isEmpty && !(pyStrip t).isEmpty
      · by_cases h2 : 10 < (cleanPage t).length
        · simp [h1, h2, ih]
        · simp [h1, h2, ih]
      · simp [h1, ih]
    | err m => simp [readerPagesLoop, List.filterMap_cons, readerContrib, ih]

/-- A page contributes nothing to the UI extractor exactly when it failed or
its text strips to nothing. -/
theorem uiContrib_eq_none_iff (p : PageResult) :
    uiContrib p = none ↔ uiPageDeadB p = true := by
  cases p with
  | err m => simp [uiContrib, uiPageDeadB]
  | ok t =>
    simp only [uiContrib, uiPageDeadB, List.isEmpty_iff]
    by_cases hstrip : pyStrip t = []
    · by_cases ht : t.isEmpty
      · simp [ht, hstrip]
      · simp [ht, hstrip]
    · have ht : ¬ t.isEmpty := by
        rw [List.isEmpty_iff]
        rintro rfl
        exact hstrip rfl
      have hclean' : cleanPage t ≠ [] :=
        fun hnil => hstrip ((cleanPage_eq_nil_iff t).mp hnil)
      have hclean : ¬ (cleanPage t).isEmpty := by
        simpa [List.isEmpty_iff] using hclean'
      simp [ht, hstrip, hclean]

/-- A page contributes nothing to the reader extractor exactly when it
failed or its normalised text has length at most 10. -/
theorem readerContrib_eq_none_iff (p : PageResult) :
    readerContrib p = none ↔ readerPageDeadB p = true := by
  cases p with
  | err m => simp [readerContrib, readerPageDeadB]
  | ok t =>
    simp only [readerContrib, readerPageDeadB, decide_eq_true_eq]
    by_cases hstrip : pyStrip t = []
    · have hclean : cleanPage t = [] := (cleanPage_eq_nil_iff t).mpr hstrip
      by_cases ht : t.isEmpty
      · simp [ht, hstrip, hclean]
      · simp [ht, hstrip, hclean, List.isEmpty_iff]
    · have ht : ¬ t.isEmpty := by
        rw [List.isEmpty_iff]
        rintro rfl
        exact hstrip rfl
      by_cases hlen : 10 < (cleanPage t).length
      · simp [ht, hstrip, hlen, List.isEmpty_iff]
      · simp [ht, hstrip, hlen, List.isEmpty_iff]
        omega


/-- Every part the UI extractor keeps is non-empty. -/
theorem uiContrib_some_ne_nil (p : PageResult) (w : List Char)
    (h : uiContrib p = some w) : w ≠ [] := by
  cases p with
  | err m => simp [uiContrib] at h
  | ok t =>
    simp only [uiContrib] at h
    by_cases h1 : !t.isEmpty && !(pyStrip t).isEmpty
    · rw [if_pos h1] at h
      by_cases h2 : !(cleanPage t).isEmpty
      · rw [if_pos h2] at h
        cases h
        simpa [List.isEmpty_iff] using h2
      · rw [if_neg h2] at h
        cases h
    · rw [if_neg h1] at h
      cases h

/-- Every part the reader extractor keeps is non-empty. -/
theorem readerContrib_some_ne_nil (p : PageResult) (w : List Char)
    (h : readerContrib p = some w) : w ≠ [] := by
  cases p with
  | err m => simp [readerContrib] at h
  | ok t =>
    simp only [readerContrib] at h
    by_cases h1 : !t.isEmpty && !(pyStrip t).isEmpty
    · rw [if_pos h1] at h
      by_cases h2 : 10 < (cleanPage t).length
      · rw [if_pos h2] at h
        cases h
        intro hnil
        rw [hnil] at h2
        simp at h2
      · rw [if_neg h2] at h
        cases h
    · rw [if_neg h1] at h
      cases h

/-- Claim C6, amended: the UI extractor returns an empty document exactly
when every page fails or strips to nothing, its document is the blank-line
join of the cleaned texts of the contributing pages, and each failing page
leaves a warning; the reader extractor returns an empty document exactly
when every page fails or normalises to at most 10 characters (so a short
but successfully extracted page is dropped there). -/
theorem extract_text_empty_iff (pages : List PageResult) (hne : pages ≠ []) :
    ((uiExtractText pages).1 = [] ↔ ∀ p ∈ pages, uiPageDeadB p = true) ∧
    (uiExtractText pages).1 = pyJoin blankSep (pages.filterMap uiContrib) ∧
    errCount pages ≤ (uiExtractText pages).2.length ∧
    ((readerExtractText pages).1 = [] ↔ ∀ p ∈ pages, readerPageDeadB p = true) := by
  have hpe : ¬ pages.isEmpty := by simpa [List.isEmpty_iff] using hne
  have hparts := uiPagesLoop_parts pages 0
  have hrparts := readerPagesLoop_parts pages 1
  have hjoin_ne : ∀ (parts : List (List Char)),
      (∀ w ∈ parts, w ≠ []) → parts ≠ [] → pyJoin blankSep parts ≠ [] := by
    intro parts hw hp
    obtain ⟨w, ws, rfl⟩ := List.exists_cons_of_ne_nil hp
    exact pyJoin_ne_nil _ w ws (hw w (by simp))
  refine ⟨?_, ?_, ?_, ?_⟩
  · unfold uiExtractText
    rw [if_neg hpe]
    simp only [hparts]
    by_cases hp : (pages.filterMap uiContrib).isEmpty
    · rw [List.isEmpty_iff] at hp
      simp only [hp, List.isEmpty_nil, if_pos rfl]
      rw [List.filterMap_eq_nil_iff] at hp
      constructor
      · intro _ p hpmem
        exact (uiContrib_eq_none_iff p).mp (hp p hpmem)
      · intro _
        rfl
    · rw [List.isEmpty_iff] at hp
      simp only [List.isEmpty_iff, if_neg hp]
      constructor
      · intro h
        exact absurd h (hjoin_ne _
          (fun w hw => by
            obtain ⟨p, -, hps⟩ := List.mem_filterMap.mp hw
            exact uiContrib_some_ne_nil p w hps) hp)
      · intro hall
        exfalso
        apply hp
        rw [List.filterMap_eq_nil_iff]
        intro p hpmem
        exact (uiContrib_eq_none_iff p).mpr (hall p hpmem)
  · unfold uiExtractText
    rw [if_neg hpe]
    simp only [hparts]
    by_cases hp : (pages.filterMap uiContrib).isEmpty
    · rw [List.isEmpty_iff] at hp
      simp [hp, pyJoin]
    · simp [List.isEmpty_iff, hp]
  · unfold uiExtractText
    rw [if_neg hpe]
    have hlen := uiPagesLoop_warns_len pages 0
    by_cases hf : 0 < (uiPagesLoop 0 pages).2.2
    · by_cases hp : (uiPagesLoop 0 pages).1.isEmpty
      · simp only [if_pos hf, if_pos hp, List.length_append]
        omega
      · simp only [if_pos hf, if_neg hp, List.length_append]
        omega
    · by_cases hp : (uiPagesLoop 0 pages).1.isEmpty
      · simp only [if_neg hf, if_pos hp, List.length_append]
        omega
      · simp only [if_neg hf, if_neg hp]
        omega
  · unfold readerExtractText
    rw [if_neg hpe]
    simp only [hrparts]
    by_cases hp : (pages.filterMap readerContrib).isEmpty
    · rw [List.isEmpty_iff] at hp
      simp only [hp, List.isEmpty_nil, if_pos rfl]
      rw [List.filterMap_eq_nil_iff] at hp
      constructor
      · intro _ p hpmem
        exact (readerContrib_eq_none_iff p).mp (hp p hpmem)
      · intro _
        rfl
    · rw [List.isEmpty_iff] at hp
      simp only [List.isEmpty_iff, if_neg hp]
      constructor
      · intro h
        exact absurd h (hjoin_ne _
          (fun w hw => by
            obtain ⟨p, -, hps⟩ := List.mem_filterMap.mp hw
            exact readerContrib_some_ne_nil p w hps) hp)
      · intro hall
        exfalso
        apply hp
        rw [List.filterMap_eq_nil_iff]
        intro p hpmem
        exact (readerContrib_eq_none_iff p).mpr (hall p hpmem)

/-- Witness for C6: one readable page and one failing page give a non-empty
document and at least one warning. -/
theorem extract_text_empty_iff_witness :
    (uiExtractText [PageResult.ok (cl "hello world"), PageResult.err (cl "boom")]).1 ≠ [] ∧
    errCount [PageResult.ok (cl "hello world"), PageResult.err (cl "boom")] ≤
      (uiExtractText [PageResult.ok (cl "hello world"), PageResult.err (cl "boom")]).2.length := by
  have h := extract_text_empty_iff
    [PageResult.ok (cl "hello world"), PageResult.err (cl "boom")]
    (List.cons_ne_nil _ _)
  refine ⟨?_, h.2.2.1⟩
  intro habs
  have hall := h.1.mp habs
  have := hall (PageResult.ok (cl "hello world")) (by simp)
  rw [show uiPageDeadB (PageResult.ok (cl "hello world")) = false from by decide] at this
  cases this

/-- Counterexample to C6 as stated: a single page that extracts successfully
with the non-empty text `tiny` still yields an empty document from the
reader extractor, because its cleaned length is not above 10. -/
theorem extract_text_cex :
    (readerExtractText [PageResult.ok (cl "tiny")]).1 = [] ∧
    pyStrip (cl "tiny") ≠ [] := by
  decide

/-! ## Claim C2: chunker progress and chunk lengths -/

/-- Every chunk the window loop emits is non-empty (the loop only appends
a stripped window when it is truthy). -/
theorem chunkLoop_mem_ne_nil (text : List Char) (cs ov : Nat) :
    ∀ (fuel start : Nat) (c : List Char),
      c ∈ chunkLoop text cs ov fuel start → c ≠ [] := by
  intro fuel
  induction fuel with
  | zero =>
    intro start c hc
    simp [chunkLoop] at hc
  | succ fuel ih =>
    intro start c hc
    by_cases hs : start < text.length
    · simp only [chunkLoop, if_pos hs] at hc
      by_cases hck : (pyStrip (pySlice text start (chunkEnd text cs start))).isEmpty
      · rw [if_pos hck] at hc
        by_cases he : text.length ≤ chunkEnd text cs start
        · rw [if_pos he] at hc
          cases hc
        · rw [if_neg he] at hc
          exact ih _ c hc
      · rw [if_neg hck] at hc
        rcases List.mem_cons.mp hc with rfl | hc'
        · simpa [List.isEmpty_iff] using hck
        · by_cases he : text.length ≤ chunkEnd text cs start
          · rw [if_pos he] at hc'
            cases hc'
          · rw [if_neg he] at hc'
            exact ih _ c hc'
    · simp [chunkLoop, hs] at hc

/-- The window loop computes the same chunk list under any sufficient fuel:
this is the termination content of the embedding, since the canonical fuel
`text.length - start` bounds the number of iterations (each iteration
advances `start` by at least one). -/
theorem chunkLoop_fuel_stable (text : List Char) (cs ov : Nat) :
    ∀ (f1 f2 start : Nat), text.length - start ≤ f1 → text.length - start ≤ f2 →
      chunkLoop text cs ov f1 start = chunkLoop text cs ov f2 start := by
  intro f1
  induction f1 with
  | zero =>
    intro f2 start h1 _
    have hs : ¬ start < text.length := by omega
    cases f2 with
    | zero => rfl
    | succ f2 => simp [chunkLoop, hs]
  | succ f1 ih =>
    intro f2 start h1 h2
    cases f2 with
    | zero =>
      have hs : ¬ start < text.length := by omega
      simp [chunkLoop, hs]
    | succ f2 =>
      by_cases hs : start < text.length
      · have hns : start + 1 ≤ nextStart (chunkEnd text cs start) ov start :=
          le_max_right _ _
        have he : (if text.length ≤ chunkEnd text cs start then ([] : List (List Char))
              else chunkLoop text cs ov f1
                (nextStart (chunkEnd text cs start) ov start)) =
            (if text.length ≤ chunkEnd text cs start then []
              else chunkLoop text cs ov f2
                (nextStart (chunkEnd text cs start) ov start)) := by
          by_cases hend : text.length ≤ chunkEnd text cs start
          · rw [if_pos hend, if_pos hend]
          · rw [if_neg hend, if_neg hend]
            exact ih f2 (nextStart (chunkEnd text cs start) ov start)
              (by omega) (by omega)
        simp only [chunkLoop, if_pos hs, he]
      · simp [chunkLoop, hs]

/-- Every chunk the reader's window loop emits is non-empty (it keeps a
stripped window only when truthy and longer than 20). -/
theorem readerChunkLoop_mem_ne_nil (text : List Char) (cs ov : Nat) :
    ∀ (fuel start : Nat) (c : List Char),
      c ∈ readerChunkLoop text cs ov fuel start → c ≠ [] := by
  intro fuel
  induction fuel with
  | zero =>
    intro start c hc
    simp [readerChunkLoop] at hc
  | succ fuel ih =>
    intro start c hc
    by_cases hs : start < text.length
    · simp only [readerChunkLoop, if_pos hs] at hc
      by_cases hck : !(pyStrip (pySlice text start (chunkEnd text cs start))).isEmpty &&
          decide (20 < (pyStrip (pySlice text start (chunkEnd text cs start))).length)
      · rw [if_pos hck] at hc
        rcases List.mem_cons.mp hc with rfl | hc'
        · have := (Bool.and_eq_true _ _).mp hck |>.1
          simpa [List.isEmpty_iff] using this
        · by_cases he : text.length ≤ chunkEnd text cs start
          · rw [if_pos he] at hc'
            cases hc'
          · rw [if_neg he] at hc'
            exact ih _ c hc'
      · rw [if_neg hck] at hc
        by_cases he : text.length ≤ chunkEnd text cs start
        · rw [if_pos he] at hc
          cases hc
        · rw [if_neg he] at hc
          exact ih _ c hc
    · simp [readerChunkLoop, hs] at hc

/-- Claim C2: the chunker always makes forward progress (the next window
start is at least `start + 1`), every chunk either implementation returns
has length at least one, and the window loop's result is independent of the
fuel as soon as the fuel covers the remaining length — the loop terminates
within `text.length - start` iterations. -/
theorem chunker_progress_nonempty :
    (∀ e ov s, s + 1 ≤ nextStart e ov s) ∧
    (∀ (text : List Char) (cs ov : Nat) (c : List Char),
      c ∈ create_text_chunks text cs ov → 1 ≤ c.length) ∧
    (∀ (text : List Char) (cs ov : Nat) (c : List Char),
      c ∈ create_chunks text cs ov → 1 ≤ c.length) ∧
    (∀ (text : List Char) (cs ov fuel start : Nat),
      text.length - start ≤ fuel →
      chunkLoop text cs ov fuel start =
        chunkLoop text cs ov (text.length - start) start) := by
  refine ⟨fun e ov s => le_max_right _ _, ?_, ?_, ?_⟩
  · intro text cs ov c hc
    have hne : c ≠ [] := by
      unfold create_text_chunks at hc
      by_cases hstrip : (pyStrip text).isEmpty
      · rw [if_pos hstrip] at hc
        cases hc
      · rw [if_neg hstrip] at hc
        by_cases hlen : (pyStrip text).length ≤ cs
        · rw [if_pos hlen] at hc
          rcases List.mem_singleton.mp hc with rfl
          simpa [List.isEmpty_iff] using hstrip
        · rw [if_neg hlen] at hc
          exact chunkLoop_mem_ne_nil _ _ _ _ _ c hc
    exact List.length_pos.mpr hne
  · intro text cs ov c hc
    have hne : c ≠ [] := by
      unfold create_chunks at hc
      by_cases hstrip : (pyStrip text).isEmpty
      · rw [if_pos hstrip] at hc
        cases hc
      · rw [if_neg hstrip] at hc
        by_cases hlen : (pyStrip text).length ≤ cs
        · rw [if_pos hlen] at hc
          rcases List.mem_singleton.mp hc with rfl
          simpa [List.isEmpty_iff] using hstrip
        · rw [if_neg hlen] at hc
          exact readerChunkLoop_mem_ne_nil _ _ _ _ _ c hc
    exact List.length_pos.mpr hne
  · intro text cs ov fuel start h
    exact chunkLoop_fuel_stable text cs ov fuel (text.length - start) start h le_rfl

/-- Witness for C2: progress, chunk lengths and fuel independence at
concrete inputs. -/
theorem chunker_progress_nonempty_witness :
    0 + 1 ≤ nextStart 5 3 0 ∧
    1 ≤ (cl "ab").length ∧
    1 ≤ (cl "cd").length ∧
    chunkLoop (cl "abc") 1 0 7 0 = chunkLoop (cl "abc") 1 0 ((cl "abc").length - 0) 0 :=
  ⟨chunker_progress_nonempty.1 5 3 0,
   chunker_progress_nonempty.2.1 (cl "ab") 5 1 (cl "ab") (by decide),
   chunker_progress_nonempty.2.2.1 (cl "cd") 500 250 (cl "cd") (by decide),
   chunker_progress_nonempty.2.2.2 (cl "abc") 1 0 7 0 (by decide)⟩

/-! ## Sorting lemmas shared by the selector claims -/

/-- Membership through `insertDesc`. -/
theorem mem_insertDesc {x y : ScoredChunk} :
    ∀ {l : List ScoredChunk}, y ∈ insertDesc x l ↔ (y = x ∨ y ∈ l) := by
  intro l
  induction l with
  | nil => simp [insertDesc]
  | cons z zs ih =>
    by_cases hz : z.score ≤ x.score
    · simp [insertDesc, hz]
    · simp only [insertDesc, if_neg hz, List.mem_cons, ih]
      tauto

/-- Membership through `sortDesc`. -/
theorem mem_sortDesc {y : ScoredChunk} :
    ∀ {l : List ScoredChunk}, y ∈ sortDesc l ↔ y ∈ l := by
  intro l
  induction l with
  | nil => simp [sortDesc]
  | cons x xs ih => simp [sortDesc, mem_insertDesc, ih]

/-- The second components of `enumFrom` entries are list elements. -/
theorem snd_mem_of_mem_enumFrom {α : Type} :
    ∀ (l : List α) (n : Nat) (p : Nat × α), p ∈ List.enumFrom n l → p.2 ∈ l := by
  intro l
  induction l with
  | nil => intro n p hp; cases hp
  | cons x xs ih =>
    intro n p hp
    rcases List.mem_cons.mp hp with rfl | hp'
    · simp
    · exact List.mem_cons_of_mem _ (ih (n + 1) p hp')

/-- Every chunk mentioned by a scored entry is one of the input chunks. -/
theorem scoredChunksUI_mem (words : List (List Char)) (chunks : List (List Char))
    (e : ScoredChunk) (he : e ∈ scoredChunksUI words chunks) :
    e.chunk ∈ chunks ∧ e.score = chunkScoreUI words e.chunk := by
  unfold scoredChunksUI at he
  obtain ⟨p, hp, rfl⟩ := List.mem_map.mp he
  exact ⟨snd_mem_of_mem_enumFrom chunks 0 p hp, rfl⟩

/-! ## Claim C4: degenerate queries and all-zero scores fall back -/

/-- Claim C4: when the chunk list is non-empty and either term extraction
yields no terms or every chunk scores zero, `find_relevant_chunks` returns
the first `max_chunks` chunks in original order joined by a blank line, and
(for a positive `max_chunks` and non-empty chunks) that string is not empty. -/
theorem selector_fallback (chunks : List (List Char)) (query : List Char) (m : Nat)
    (hne : chunks ≠ []) (hall : ∀ c ∈ chunks, c ≠ []) (hm : 0 < m)
    (hdeg : query_words query = [] ∨
      ∀ c ∈ chunks, chunkScoreUI (query_words query) c = 0) :
    (find_relevant_chunks chunks query m = pyJoin blankSep (chunks.take m) ∧
      find_relevant_chunks chunks query m ≠ []) ∧
    ((query_terms_reader query = [] ∨
        ∀ c ∈ chunks, chunkScoreReader (query_terms_reader query) c = 0) →
      PDFProcessor_find chunks query m = pyJoin blankSep (chunks.take m) ∧
      PDFProcessor_find chunks query m ≠ []) := by
  have hjoin : pyJoin blankSep (chunks.take m) ≠ [] := by
    obtain ⟨c0, rest, rfl⟩ := List.exists_cons_of_ne_nil hne
    obtain ⟨m', rfl⟩ := Nat.exists_eq_succ_of_ne_zero (Nat.pos_iff_ne_zero.mp hm)
    rw [List.take_succ_cons]
    exact pyJoin_ne_nil blankSep c0 (rest.take m') (hall c0 (by simp))
  constructor
  · have hout : find_relevant_chunks chunks query m = pyJoin blankSep (chunks.take m) := by
      unfold find_relevant_chunks
      rw [if_neg (by simpa [List.isEmpty_iff] using hne)]
      by_cases hq : (pyStrip query).isEmpty
      · rw [if_pos hq]
      · rw [if_neg hq]
        by_cases hw : (query_words query).isEmpty
        · rw [if_pos hw]
        · rw [if_neg hw]
          rcases hdeg with hwnil | hz
          · exact absurd (by simp [hwnil, List.isEmpty_iff] : (query_words query).isEmpty) hw
          · have hfilter :
                ((sortDesc (scoredChunksUI (query_words query) chunks)).take m).filter
                  (fun e => 0 < e.score) = [] := by
              rw [List.filter_eq_nil_iff]
              intro e he
              have hmem : e ∈ sortDesc (scoredChunksUI (query_words query) chunks) :=
                List.mem_of_mem_take he
              rw [mem_sortDesc] at hmem
              obtain ⟨hc, hs⟩ := scoredChunksUI_mem _ _ e hmem
              rw [decide_eq_true_eq, hs, hz e.chunk hc]
              exact lt_irrefl 0
            simp [hfilter]
    exact ⟨hout, hout ▸ hjoin⟩
  · intro hdegR
    have hout : PDFProcessor_find chunks query m = pyJoin blankSep (chunks.take m) := by
      unfold PDFProcessor_find
      rw [if_neg (by simpa [List.isEmpty_iff] using hne)]
      by_cases hq : (pyStrip query).isEmpty
      · rw [if_pos hq]
      · rw [if_neg hq]
        by_cases hw : (query_terms_reader query).isEmpty
        · rw [if_pos hw]
        · rw [if_neg hw]
          rcases hdegR with hwnil | hz
          · exact absurd
              (by simp [hwnil, List.isEmpty_iff] : (query_terms_reader query).isEmpty) hw
          · have hscored : chunks.filterMap (fun c =>
                if 0 < chunkScoreReader (query_terms_reader query) c then
                  some (chunkScoreReader (query_terms_reader query) c, c)
                else none) = [] := by
              rw [List.filterMap_eq_nil_iff]
              intro c hc
              rw [hz c hc]
              simp
            simp [hscored, sortDescP]
    exact ⟨hout, hout ▸ hjoin⟩

/-- Witness for C4: a stop-word query over two non-empty chunks, for both
selector implementations. -/
theorem selector_fallback_witness :
    (find_relevant_chunks [cl "alpha beta", cl "gamma"] (cl "the") 2 =
      pyJoin blankSep ([cl "alpha beta", cl "gamma"].take 2) ∧
      find_relevant_chunks [cl "alpha beta", cl "gamma"] (cl "the") 2 ≠ []) ∧
    (PDFProcessor_find [cl "alpha beta", cl "gamma"] (cl "the") 2 =
      pyJoin blankSep ([cl "alpha beta", cl "gamma"].take 2) ∧
      PDFProcessor_find [cl "alpha beta", cl "gamma"] (cl "the") 2 ≠ []) :=
  ⟨(selector_fallback [cl "alpha beta", cl "gamma"] (cl "the") 2
      (List.cons_ne_nil _ _) (by decide) (by decide) (Or.inl (by decide))).1,
   (selector_fallback [cl "alpha beta", cl "gamma"] (cl "the") 2
      (List.cons_ne_nil _ _) (by decide) (by decide) (Or.inl (by decide))).2
      (Or.inl (by decide))⟩

/-! ## Claim C1: the scoring formula -/

/-- Folding an accumulated sum equals the initial value plus the mapped sum. -/
theorem foldl_add_eq_sum (f : List Char → ℚ) :
    ∀ (l : List (List Char)) (a : ℚ),
      l.foldl (fun s w => s + f w) a = a + (l.map f).sum := by
  intro l
  induction l with
  | nil => intro a; simp
  | cons x xs ih =>
    intro a
    simp only [List.foldl_cons, List.map_cons, List.sum_cons, ih (a + f x)]
    ring

/-- Claim C1, amended: the UI selector's score is exactly the spec formula
`sum of count * (1 + len / 10)`, the reader's score uses the different
weight `1 + (len - 3) / 10`, and under either formula a chunk holding 3
occurrences of an 8-letter query term scores strictly higher than a chunk
holding 1 occurrence. -/
theorem score_formula :
    (∀ (terms : List (List Char)) (c : List Char),
      chunkScoreUI terms c = specScore terms c) ∧
    (∀ (t c1 c2 : List Char), t.length = 8 →
      pyCount t (pyLowerStr c1) = 3 → pyCount t (pyLowerStr c2) = 1 →
      chunkScoreUI [t] c2 < chunkScoreUI [t] c1 ∧
      chunkScoreReader [t] c2 < chunkScoreReader [t] c1) := by
  constructor
  · intro terms c
    unfold chunkScoreUI specScore
    rw [foldl_add_eq_sum, zero_add]
  · intro t c1 c2 hlen h1 h2
    constructor
    · unfold chunkScoreUI
      simp only [List.foldl_cons, List.foldl_nil, h1, h2, hlen]
      norm_num
    · unfold chunkScoreReader
      simp only [List.foldl_cons, List.foldl_nil, h1, h2, hlen]
      norm_num

/-- Witness for C1: the 8-letter term `abcdefgh` with chunks holding three
occurrences and one occurrence. -/
theorem score_formula_witness :
    chunkScoreUI [cl "abcdefgh"] (cl "abcdefgh") <
      chunkScoreUI [cl "abcdefgh"] (cl "abcdefgh abcdefgh abcdefgh") ∧
    chunkScoreReader [cl "abcdefgh"] (cl "abcdefgh") <
      chunkScoreReader [cl "abcdefgh"] (cl "abcdefgh abcdefgh abcdefgh") :=
  score_formula.2 (cl "abcdefgh") (cl "abcdefgh abcdefgh abcdefgh")
    (cl "abcdefgh") (by decide) (by decide) (by decide)

/-- Counterexample to C1 as stated: for the query term `cats` and the chunk
`cats` the reader implementation scores `1 * (1 + (4 - 3) / 10) = 11/10`,
while the claimed formula gives `1 * (1 + 4 / 10) = 7/5`. -/
theorem score_formula_cex :
    query_terms_reader (cl "cats") = [cl "cats"] ∧
    chunkScoreReader [cl "cats"] (cl "cats") = 11 / 10 ∧
    specScore [cl "cats"] (cl "cats") = 7 / 5 ∧
    (11 / 10 : ℚ) ≠ 7 / 5 := by
  have hcount : pyCount (cl "cats") (pyLowerStr (cl "cats")) = 1 := by decide
  have hlen : (cl "cats").length = 4 := by decide
  refine ⟨by decide, ?_, ?_, by norm_num⟩
  · unfold chunkScoreReader
    simp only [List.foldl_cons, List.foldl_nil, hcount, hlen]
    norm_num
  · unfold specScore
    simp only [List.map_cons, List.map_nil, List.sum_cons, List.sum_nil,
      hcount, hlen]
    norm_num

/-! ## Claim C3: ties keep original chunk order -/

/-- Inserting an entry whose index is below every index in a ranked list
keeps the list ranked (the stability step). -/
theorem insertDesc_pairwise {x : ScoredChunk} :
    ∀ {l : List ScoredChunk}, List.Pairwise rankedBefore l →
      (∀ y ∈ l, x.idx < y.idx) →
      List.Pairwise rankedBefore (insertDesc x l) := by
  intro l
  induction l with
  | nil =>
    intro _ _
    simp [insertDesc]
  | cons y ys ih =>
    intro hp hidx
    rw [List.pairwise_cons] at hp
    obtain ⟨hy, hys⟩ := hp
    unfold insertDesc
    by_cases hscore : y.score ≤ x.score
    · rw [if_pos hscore]
      refine List.Pairwise.cons ?_ (List.Pairwise.cons hy hys)
      intro z hz
      have hzle : z.score ≤ x.score := by
        rcases List.mem_cons.mp hz with rfl | hzys
        · exact hscore
        · rcases hy z hzys with hlt | ⟨heq, -⟩
          · exact le_trans (le_of_lt hlt) hscore
          · exact le_trans (le_of_eq heq.symm) hscore
      rcases lt_or_eq_of_le hzle with hlt | heq
      · exact Or.inl hlt
      · exact Or.inr ⟨heq.symm, hidx z hz⟩
    · rw [if_neg hscore]
      push_neg at hscore
      refine List.Pairwise.cons ?_ (ih hys (fun z hz => hidx z (List.mem_cons_of_mem _ hz)))
      intro z hz
      rcases mem_insertDesc.mp hz with rfl | hzys
      · exact Or.inl hscore
      · exact hy z hzys

/-- A list with strictly increasing indices sorts into a ranked list:
score descending, ties by original index ascending. -/
theorem sortDesc_pairwise :
    ∀ {l : List ScoredChunk},
      List.Pairwise (fun a b : ScoredChunk => a.idx < b.idx) l →
      List.Pairwise rankedBefore (sortDesc l) := by
  intro l
  induction l with
  | nil =>
    intro _
    simp [sortDesc]
  | cons x xs ih =>
    intro hp
    rw [List.pairwise_cons] at hp
    obtain ⟨hx, hxs⟩ := hp
    exact insertDesc_pairwise (ih hxs) (fun y hy => hx y (mem_sortDesc.mp hy))

/-- Indices of `enumFrom` entries are at least the starting index. -/
theorem le_fst_of_mem_enumFrom {α : Type} :
    ∀ (l : List α) (n : Nat) (p : Nat × α), p ∈ List.enumFrom n l → n ≤ p.1 := by
  intro l
  induction l with
  | nil => intro n p hp; cases hp
  | cons x xs ih =>
    intro n p hp
    rcases List.mem_cons.mp hp with rfl | hp'
    · exact le_rfl
    · exact le_trans (Nat.le_succ n) (ih (n + 1) p hp')

/-- `enumFrom` indices are strictly increasing. -/
theorem pairwise_fst_lt_enumFrom {α : Type} :
    ∀ (l : List α) (n : Nat),
      List.Pairwise (fun a b : Nat × α => a.1 < b.1) (List.enumFrom n l) := by
  intro l
  induction l with
  | nil => intro n; simp
  | cons x xs ih =>
    intro n
    rw [List.enumFrom_cons, List.pairwise_cons]
    exact ⟨fun p hp => lt_of_lt_of_le (Nat.lt_succ_self n)
      (le_fst_of_mem_enumFrom xs (n + 1) p hp), ih (n + 1)⟩

/-- The scored entries carry strictly increasing original indices. -/
theorem scoredChunksUI_pairwise_idx (words : List (List Char))
    (chunks : List (List Char)) :
    List.Pairwise (fun a b : ScoredChunk => a.idx < b.idx)
      (scoredChunksUI words chunks) := by
  unfold scoredChunksUI
  rw [List.pairwise_map]
  exact pairwise_fst_lt_enumFrom chunks 0

/-- Erasing tags commutes with descending insertion: the guards of
`insertDesc` and `insertDescP` compare the same scores. -/
theorem insertDesc_map_untag (e : ScoredChunk) :
    ∀ (l : List ScoredChunk),
      (insertDesc e l).map untagPair = insertDescP (untagPair e) (l.map untagPair) := by
  intro l
  induction l with
  | nil => rfl
  | cons y ys ih =>
    by_cases h : y.score ≤ e.score
    · simp [insertDesc, insertDescP, untagPair, h]
    · simp [insertDesc, insertDescP, untagPair, h, ih]

/-- Erasing tags commutes with the stable descending sort: the reader's
pair sort is the index-erasure of the indexed stable sort. -/
theorem sortDesc_map_untag :
    ∀ (l : List ScoredChunk),
      (sortDesc l).map untagPair = sortDescP (l.map untagPair) := by
  intro l
  induction l with
  | nil => rfl
  | cons x xs ih =>
    simp only [sortDesc, sortDescP, List.map_cons, insertDesc_map_untag, ih]

/-- Tagging then erasing tags is the identity on the reader's pairs. -/
theorem tagScored_map_untag (ps : List (ℚ × List Char)) :
    (tagScored ps).map untagPair = ps := by
  unfold tagScored untagPair
  rw [List.map_map]
  exact List.enum_map_snd ps

/-- The tagged pairs carry strictly increasing original positions. -/
theorem tagScored_pairwise_idx (ps : List (ℚ × List Char)) :
    List.Pairwise (fun a b : ScoredChunk => a.idx < b.idx) (tagScored ps) := by
  unfold tagScored
  rw [List.pairwise_map]
  exact pairwise_fst_lt_enumFrom ps 0

/-- Claim C3: in both selectors, equal-scored chunks keep their original
relative order. The UI sorted score list is ranked by score descending with
ties in original index order, and the sublist actually selected (top
`max_chunks`, positive scores) keeps that order. The reader's pair sort
(`sortDescP`, applied by `PDFProcessor_find` to `readerScoredPairs`) equals
the index-erasure of the stable indexed sort of the same entries, which is
ranked likewise, as is the selected prefix of length `max_chunks`. -/
theorem selector_ties_stable (chunks : List (List Char)) (query : List Char)
    (m : Nat) :
    List.Pairwise rankedBefore
      (sortDesc (scoredChunksUI (query_words query) chunks)) ∧
    List.Pairwise rankedBefore
      (((sortDesc (scoredChunksUI (query_words query) chunks)).take m).filter
        (fun e => 0 < e.score)) ∧
    sortDescP (readerScoredPairs (query_terms_reader query) chunks) =
      (sortDesc (tagScored (readerScoredPairs (query_terms_reader query) chunks))).map
        untagPair ∧
    List.Pairwise rankedBefore
      (sortDesc (tagScored (readerScoredPairs (query_terms_reader query) chunks))) ∧
    List.Pairwise rankedBefore
      ((sortDesc (tagScored (readerScoredPairs (query_terms_reader query) chunks))).take m) := by
  have hui := sortDesc_pairwise (scoredChunksUI_pairwise_idx (query_words query) chunks)
  have hr := sortDesc_pairwise
    (tagScored_pairwise_idx (readerScoredPairs (query_terms_reader query) chunks))
  refine ⟨hui, hui.sublist ((List.filter_sublist _).trans (List.take_sublist m _)),
    ?_, hr, hr.sublist (List.take_sublist m _)⟩
  rw [sortDesc_map_untag, tagScored_map_untag]

/-- Claim C9: `PDFProcessor.__init__` stores `max(chunk_size, 500)` as the
chunk size and `min(overlap, chunk_size // 2)` as the overlap, the floor
division taken on the original unclamped `chunk_size`; hence a requested
size below 500 is raised to 500 and the stored overlap never exceeds half
of the stored chunk size. -/
theorem pdfprocessor_init_clamps (cs ov : Int) :
    PDFProcessor_init cs ov = (max cs 500, min ov (cs / 2)) ∧
    (cs < 500 → (PDFProcessor_init cs ov).1 = 500) ∧
    (PDFProcessor_init cs ov).2 ≤ (PDFProcessor_init cs ov).1 / 2 := by
  refine ⟨rfl, ?_, ?_⟩
  · intro h
    simp only [PDFProcessor_init]
    omega
  · simp only [PDFProcessor_init]
    omega

/-- Witness for C9 at `chunk_size = 300`, `overlap = 400`. -/
theorem pdfprocessor_init_clamps_witness :
    (PDFProcessor_init 300 400).1 = 500 ∧
    (PDFProcessor_init 300 400).2 ≤ (PDFProcessor_init 300 400).1 / 2 :=
  ⟨(pdfprocessor_init_clamps 300 400).2.1 (by decide),
   (pdfprocessor_init_clamps 300 400).2.2⟩

/-- Claim C10: `get_weather` in mock mode is total: the empty city yields
the error string, a city found in `MOCK_DATA` (after stripping and
lower-casing) yields its mock entry formatted as a weather line, and any
unknown city yields the default `sunny, 30°C` line. -/
theorem get_weather_mock_total (city : List Char) :
    (get_weather_mock [] = cl "Error: No city provided") ∧
    (city ≠ [] → ∀ w, lookupMock (pyLowerStr (pyStrip city)) = some w →
      get_weather_mock city = cl "Weather in " ++ pyStrip city ++ cl ": " ++ w) ∧
    (city ≠ [] → lookupMock (pyLowerStr (pyStrip city)) = none →
      get_weather_mock city =
        cl "Weather in " ++ pyStrip city ++ cl ": " ++ cl "sunny, 30°C") := by
  refine ⟨rfl, ?_, ?_⟩
  · intro hne w hw
    simp [get_weather_mock, List.isEmpty_iff, hne, hw]
  · intro hne hw
    simp [get_weather_mock, List.isEmpty_iff, hne, hw]

/-- Witness for C10 at a known city (with surrounding whitespace) and an
unknown one. -/
theorem get_weather_mock_total_witness :
    get_weather_mock (cl " Hyderabad ") =
      cl "Weather in Hyderabad: cloudy with light rain, 27°C" ∧
    get_weather_mock (cl "Atlantis") = cl "Weather in Atlantis: sunny, 30°C" := by
  constructor
  · rw [(get_weather_mock_total (cl " Hyderabad ")).2.1 (by decide)
      (cl "cloudy with light rain, 27°C") (by decide)]
    decide
  · rw [(get_weather_mock_total (cl "Atlantis")).2.2 (by decide) (by decide)]
    decide

/-- Claim C5, amended: both Gemini-call error classifiers return a fixed
classifying string chosen by substring tests on the lower-cased error text,
checked in order. The UI classifier fires the quota message on any of
`429`, `quota` or bare `limit`; the reader classifier fires the quota
message on `429`, `quota` or `rate limit`, the auth message on any of
`api`, `key` or `auth`, and the model-not-found message on `404` alone. -/
theorem gemini_error_classified (mn e : List Char) :
    (uiQuotaCond (pyLowerStr e) = true → classifyUI mn e = uiQuotaMsg) ∧
    (uiQuotaCond (pyLowerStr e) = false → uiAuthCond (pyLowerStr e) = true →
      classifyUI mn e = uiAuthMsg) ∧
    (uiQuotaCond (pyLowerStr e) = false → uiAuthCond (pyLowerStr e) = false →
      uiSafetyCond (pyLowerStr e) = true → classifyUI mn e = uiSafetyMsg) ∧
    (uiQuotaCond (pyLowerStr e) = false → uiAuthCond (pyLowerStr e) = false →
      uiSafetyCond (pyLowerStr e) = false → uiNotFoundCond (pyLowerStr e) = true →
      classifyUI mn e = uiNotFoundMsg mn) ∧
    (uiQuotaCond (pyLowerStr e) = false → uiAuthCond (pyLowerStr e) = false →
      uiSafetyCond (pyLowerStr e) = false → uiNotFoundCond (pyLowerStr e) = false →
      classifyUI mn e = uiGenericMsg e) ∧
    (readerQuotaCond (pyLowerStr e) = true → classifyReader mn e = readerQuotaMsg) ∧
    (readerQuotaCond (pyLowerStr e) = false → readerAuthCond (pyLowerStr e) = true →
      classifyReader mn e = readerAuthMsg) ∧
    (readerQuotaCond (pyLowerStr e) = false → readerAuthCond (pyLowerStr e) = false →
      readerSafetyCond (pyLowerStr e) = true → classifyReader mn e = readerSafetyMsg) ∧
    (readerQuotaCond (pyLowerStr e) = false → readerAuthCond (pyLowerStr e) = false →
      readerSafetyCond (pyLowerStr e) = false → readerNotFoundCond (pyLowerStr e) = true →
      classifyReader mn e = readerNotFoundMsg mn) ∧
    (readerQuotaCond (pyLowerStr e) = false → readerAuthCond (pyLowerStr e) = false →
      readerSafetyCond (pyLowerStr e) = false → readerNotFoundCond (pyLowerStr e) = false →
      classifyReader mn e = readerGenericMsg e) := by
  refine ⟨?_, ?_, ?_, ?_, ?_, ?_, ?_, ?_, ?_, ?_⟩ <;>
    intros <;> simp_all [classifyUI, classifyReader]

/-- Witness for C5: a quota-classified error on the UI side and an
auth-classified error on the reader side. -/
theorem gemini_error_classified_witness :
    classifyUI (cl "gemini-1.5-flash") (cl "429 quota exceeded") = uiQuotaMsg ∧
    classifyReader (cl "gemini-1.5-flash") (cl "authentication failure") =
      readerAuthMsg :=
  ⟨(gemini_error_classified (cl "gemini-1.5-flash") (cl "429 quota exceeded")).1
      (by decide),
   ((gemini_error_classified (cl "gemini-1.5-flash")
      (cl "authentication failure")).2.2.2.2.2.2.1) (by decide) (by decide)⟩

/-- Counterexample to C5 as stated: the error text `Request hit the token
limit` contains none of the substrings the claim lists (`429`, `quota`,
`rate limit`, `api` with `key`, `blocked`, `safety`, `404`, `not found`),
so by the claim it should yield the generic failure message, yet the UI
classifier returns the quota message because the source also matches the
bare substring `limit`. -/
theorem gemini_error_classified_cex :
    (containsS (cl "429") (pyLowerStr (cl "Request hit the token limit")) = false ∧
     containsS (cl "quota") (pyLowerStr (cl "Request hit the token limit")) = false ∧
     containsS (cl "rate limit") (pyLowerStr (cl "Request hit the token limit")) = false ∧
     (containsS (cl "api") (pyLowerStr (cl "Request hit the token limit")) &&
       containsS (cl "key") (pyLowerStr (cl "Request hit the token limit"))) = false ∧
     containsS (cl "blocked") (pyLowerStr (cl "Request hit the token limit")) = false ∧
     containsS (cl "safety") (pyLowerStr (cl "Request hit the token limit")) = false ∧
     containsS (cl "404") (pyLowerStr (cl "Request hit the token limit")) = false ∧
     containsS (cl "not found") (pyLowerStr (cl "Request hit the token limit")) = false) ∧
    classifyUI (cl "gemini-1.5-flash") (cl "Request hit the token limit") = uiQuotaMsg ∧
    uiQuotaMsg ≠ uiGenericMsg (cl "Request hit the token limit") := by
  decide

/-- Claim C7, amended: the weather response parser returns the text of the
first text-typed item of a `content` list, else the `result` value, else a
string-valued `content`, and serialises the raw JSON body only when none of
the three shapes is present; both example bodies yield `sunny`. -/
theorem weather_parse_shapes :
    (∀ kvs ikvs v, contentHit kvs = some ikvs →
      lookupObj (cl "text") ikvs = some v →
      call_weather_tool_parse (.obj kvs) = v) ∧
    (∀ kvs r, contentHit kvs = none → lookupObj (cl "result") kvs = some r →
      call_weather_tool_parse (.obj kvs) = r) ∧
    (∀ kvs s, contentHit kvs = none → lookupObj (cl "result") kvs = none →
      lookupObj (cl "content") kvs = some (.str s) →
      call_weather_tool_parse (.obj kvs) = .str s) ∧
    (∀ kvs, contentHit kvs = none → lookupObj (cl "result") kvs = none →
      (∀ s, lookupObj (cl "content") kvs ≠ some (.str s)) →
      call_weather_tool_parse (.obj kvs) = .str (jsonDumps (.obj kvs))) ∧
    call_weather_tool_parse
      (.obj (.cons (cl "result") (.str (cl "sunny")) .nil)) = .str (cl "sunny") ∧
    call_weather_tool_parse
      (.obj (.cons (cl "content")
        (.arr (.cons (.obj (.cons (cl "type") (.str (cl "text"))
          (.cons (cl "text") (.str (cl "sunny")) .nil))) .nil)) .nil)) =
      .str (cl "sunny") := by
  refine ⟨?_, ?_, ?_, ?_, rfl, rfl⟩
  · intro kvs ikvs v hhit htext
    simp [call_weather_tool_parse, hhit, htext]
  · intro kvs r hhit hres
    simp [call_weather_tool_parse, hhit, hres]
  · intro kvs s hhit hres hcont
    simp [call_weather_tool_parse, hhit, hres, hcont]
  · intro kvs hhit hres hcont
    simp only [call_weather_tool_parse, hhit, hres]

/-- Witness for C7: the four shape clauses applied at concrete bodies. -/
theorem weather_parse_shapes_witness :
    call_weather_tool_parse
      (.obj (.cons (cl "content")
        (.arr (.cons (.obj (.cons (cl "type") (.str (cl "text"))
          (.cons (cl "text") (.str (cl "sunny")) .nil))) .nil)) .nil)) =
      .str (cl "sunny") ∧
    call_weather_tool_parse
      (.obj (.cons (cl "result") (.str (cl "sunny")) .nil)) = .str (cl "sunny") ∧
    call_weather_tool_parse
      (.obj (.cons (cl "temp") (.int 30) .nil)) =
      .str (jsonDumps (.obj (.cons (cl "temp") (.int 30) .nil))) := by
  refine ⟨?_, ?_, ?_⟩
  · exact weather_parse_shapes.1 _ _ _ rfl rfl
  · exact weather_parse_shapes.2.1 _ _ rfl rfl
  · exact weather_parse_shapes.2.2.2.1 _ rfl rfl
      (fun s h => by rw [show lookupObj (cl "content")
        (PyJsonObj.cons (cl "temp") (.int 30) .nil) = none from rfl] at h; cases h)

/-- Counterexample to C7 as stated: the body holding only a string-valued
`content` key has neither of the two shapes the claim accepts, so by the
claim the parser should serialise the raw JSON body, yet the source has a
third arm returning the string itself. -/
theorem weather_parse_cex :
    contentHit (.cons (cl "content") (.str (cl "hello")) .nil) = none ∧
    lookupObj (cl "result") (.cons (cl "content") (.str (cl "hello")) .nil) = none ∧
    call_weather_tool_parse
      (.obj (.cons (cl "content") (.str (cl "hello")) .nil)) = .str (cl "hello") ∧
    jsonDumps (.obj (.cons (cl "content") (.str (cl "hello")) .nil)) ≠ cl "hello" := by
  refine ⟨rfl, rfl, rfl, by decide⟩

/-- Claim C8, amended: on model success the reply is stripped of whitespace
then quotes and a case-insensitive `NONE` means no city; on model failure the
fallback returns the title-cased form of the first hard-coded city occurring
in the lower-cased query (checked in list order), and no city when none
occurs. -/
theorem extract_city_behaviour :
    (∀ reply, pyUpperStr (pyStripSet quoteChars (pyStrip reply)) = cl "NONE" →
      extract_city_reply reply = none) ∧
    (∀ q c, common_cities.find? (fun c0 => containsS c0 (pyLowerStr q)) = some c →
      extract_city_fallback q = some (pyTitle c)) ∧
    (∀ q, common_cities.find? (fun c0 => containsS c0 (pyLowerStr q)) = none →
      extract_city_fallback q = none) := by
  refine ⟨?_, ?_, ?_⟩
  · intro reply h
    simp [extract_city_reply, h]
  · intro q c h
    simp [extract_city_fallback, h]
  · intro q h
    simp [extract_city_fallback, h]

/-- Witness for C8: a quoted `none` reply, a query naming London, and a
query naming no listed city. -/
theorem extract_city_behaviour_witness :
    extract_city_reply (cl " 'none' ") = none ∧
    extract_city_fallback (cl "weather in london") = some (cl "London") ∧
    extract_city_fallback (cl "weather in springfield") = none := by
  refine ⟨extract_city_behaviour.1 _ (by decide), ?_,
    extract_city_behaviour.2.2 _ (by decide)⟩
  rw [extract_city_behaviour.2.1 (cl "weather in london") (cl "london") (by decide)]
  decide

/-- Counterexample to C8 as stated: for the query `weather in new york` the
first matching list entry is `new york`, but the code returns its
title-cased form `New York`, not the entry itself. -/
theorem extract_city_cex :
    common_cities.find?
      (fun c0 => containsS c0 (pyLowerStr (cl "weather in new york"))) =
      some (cl "new york") ∧
    extract_city_fallback (cl "weather in new york") = some (cl "New York") ∧
    (cl "New York") ≠ (cl "new york") := by
  decide

end Lynq
